import Mathlib

/-
Verification of the mp-wx-sdk adapter (src/index.js).

The repository wraps a callback-based capability object (the `wx` host API)
into promise-returning methods.  The core is:

  promisify(api) {
    if (!this.wx) { throw new Error('wx对象不存在'); }
    return (options, ...params) => {
      return new Promise((resolve, reject) => {
        if (typeof options === 'function') {
          resolve(api(options));
        } else {
          api(Object.assign({}, options, { success: resolve, fail: reject }), ...params);
        }
      });
    };
  }
  setOption(fun, options) {
    if (!this.wx) { throw new Error('wx对象不存在'); }
    if (options) { return this.promisify(this.wx[fun])(options); }
    else { return this.promisify(this.wx[fun])(); }
  }

plus ~40 one-line delegations such as
  async post(url, data, header) {
    return this.setOption('request', Object.assign({}, { method: 'POST', url, data, header }));
  }

The embedding models JavaScript values shallowly: functions are opaque tags
whose behaviour when called by the adapter is supplied by a host-behaviour
environment; objects are ordered field lists; Object.assign, property lookup,
truthiness and the typeof-function test follow the JavaScript semantics the
source relies on.  A throw inside the `new Promise` executor is converted by
the Promise constructor into a rejection of the promise, exactly as in
JavaScript; a throw before the Promise constructor runs is a synchronous
throw, modelled with Except.error.
-/

namespace MpWxSdk

/-- JavaScript values, shallowly embedded.  Numbers are split into
integer-valued numbers and the NaN value (only truthiness of numbers matters
to this code).  Host-supplied functions are opaque tags interpreted by a
host-behaviour environment; resolveFn and rejectFn are the two callback
functions a single promisified invocation injects. -/
inductive Value where
  | undefined
  | null
  | bool (b : Bool)
  | int (n : Int)
  | nan
  | str (s : String)
  | obj (fields : List (String × Value))
  | hostFn (tag : Nat)
  | resolveFn
  | rejectFn

/-- JavaScript truthiness: undefined, null, false, 0, NaN and the empty
string are falsy; every object and function is truthy. -/
def truthy : Value → Bool
  | .undefined => false
  | .null => false
  | .bool b => b
  | .int n => n != 0
  | .nan => false
  | .str s => s ≠ ""
  | .obj _ => true
  | .hostFn _ => true
  | .resolveFn => true
  | .rejectFn => true

/-- The typeof-function test used by the invoker to pick the bare-callback
branch. -/
def isFunction : Value → Bool
  | .hostFn _ => true
  | .resolveFn => true
  | .rejectFn => true
  | _ => false

/-- Own enumerable properties of a string: its character index properties,
as Object.assign sees them. -/
def strProps (s : String) : List (String × Value) :=
  (List.range s.length).map (fun i => (toString i, Value.str (String.singleton (s.toList.getD i ' '))))

/-- Own enumerable properties of a value, the ones Object.assign copies:
objects expose their fields, strings their index properties, every other
primitive and functions none. -/
def ownProps : Value → List (String × Value)
  | .obj fs => fs
  | .str s => strProps s
  | _ => []

/-- First binding of a key in a field list (JavaScript objects carry each key
once, so first and only). -/
def lookupProp : List (String × Value) → String → Option Value
  | [], _ => none
  | (k', v') :: rest, k => if k' = k then some v' else lookupProp rest k

/-- Property read, returning undefined for a missing key, as in JavaScript. -/
def getProp (v : Value) (k : String) : Value :=
  match lookupProp (ownProps v) k with
  | some w => w
  | none => .undefined

/-- Property write on a field list: an existing key keeps its position and
gets the new value, a new key is appended, as in JavaScript. -/
def setProp : List (String × Value) → String → Value → List (String × Value)
  | [], k, v => [(k, v)]
  | (k', v') :: rest, k, v =>
    if k' = k then (k, v) :: rest else (k', v') :: setProp rest k v

/-- Copy a list of key-value pairs onto a field list in order, later writes
winning, as Object.assign copies one source. -/
def assignProps : List (String × Value) → List (String × Value) → List (String × Value)
  | acc, [] => acc
  | acc, (k, v) :: rest => assignProps (setProp acc k v) rest

/-- Object.assign with a fresh empty object as target, the only form the
source uses: copies the own enumerable properties of each source in order
onto a new object. -/
def objAssign (sources : List Value) : Value :=
  .obj (sources.foldl (fun acc s => assignProps acc (ownProps s)) [])

/-- The Error thrown when the held wx reference is falsy. -/
def wxAbsentError : Value := .str "Error: wx对象不存在"

/-- The TypeError raised by calling a non-function value. -/
def typeErrorNotFunction : Value := .str "TypeError: not a function"

/-- State of one promise: pending, or settled exactly once. -/
inductive Settlement where
  | pending
  | resolved (v : Value)
  | rejected (v : Value)

/-- Calling resolve: settles a pending promise as resolved, is a no-op on a
settled one (first settlement wins). -/
def Settlement.resolveWith : Settlement → Value → Settlement
  | .pending, v => .resolved v
  | s, _ => s

/-- Calling reject: settles a pending promise as rejected, is a no-op on a
settled one. -/
def Settlement.rejectWith : Settlement → Value → Settlement
  | .pending, v => .rejected v
  | s, _ => s

/-- Behaviour of one host operation when the adapter calls it: it either
reads a named field of its first argument and calls that field with one
argument before returning, or just returns, or throws. -/
inductive HostBeh where
  | callField (field : String) (arg : Value) (ret : Value)
  | pureRet (ret : Value)
  | throwV (e : Value)

/-- Host-behaviour environment: what each opaque host function does. -/
def HostEnv := Nat → HostBeh

/-- A call to a callback value performed by the host: calling the injected
resolve or reject settles the promise, calling another host function has no
effect on the promise, calling a non-function throws a TypeError. -/
def callCallback (cb : Value) (arg : Value) (st : Settlement) : Except Value Settlement :=
  match cb with
  | .resolveFn => .ok (st.resolveWith arg)
  | .rejectFn => .ok (st.rejectWith arg)
  | .hostFn _ => .ok st
  | _ => .error typeErrorNotFunction

/-- Applying the api value to an argument list: returns the pair of the call
result (return value, or thrown error) and the promise state afterwards.
Applying a non-function throws a TypeError. -/
def runHost (env : HostEnv) (api : Value) (args : List Value) (st : Settlement) :
    Except Value Value × Settlement :=
  match api with
  | .hostFn tag =>
    match env tag with
    | .callField field arg ret =>
      match callCallback (getProp (args.headD .undefined) field) arg st with
      | .ok st' => (.ok ret, st')
      | .error e => (.error e, st)
    | .pureRet ret => (.ok ret, st)
    | .throwV e => (.error e, st)
  | .resolveFn => (.ok .undefined, st.resolveWith (args.headD .undefined))
  | .rejectFn => (.ok .undefined, st.rejectWith (args.headD .undefined))
  | _ => (.error typeErrorNotFunction, st)

/-- The options value the invoker hands to the host in the structured
branch: Object.assign of a fresh empty object, the caller options, and the
injected success and fail callbacks, in that order. -/
def mergedOptions (options : Value) : Value :=
  objAssign [options, .obj [("success", .resolveFn), ("fail", .rejectFn)]]

/-- What one invocation produced: the call expression the executor evaluated
against the api value (callee and argument list), and how the promise ended
up.  A throw inside the executor is converted into a rejection by the
Promise constructor, so it appears here as a rejected settlement, never as a
synchronous throw. -/
structure InvokeOutcome where
  hostCall : Option (Value × List Value)
  settlement : Settlement

/-- The invoker returned by promisify, applied to its full argument list
(head is the options value, defaulting to undefined when absent; tail is the
rest parameters).  Embeds the body of the arrow function inside promisify:
the new Promise executor with the typeof-function branch. -/
def runInvoker (env : HostEnv) (api : Value) (args : List Value) : InvokeOutcome :=
  let options := args.headD .undefined
  if isFunction options then
    { hostCall := some (api, [options]),
      settlement :=
        match runHost env api [options] .pending with
        | (.ok ret, st) => st.resolveWith ret
        | (.error e, st) => st.rejectWith e }
  else
    let merged := mergedOptions options
    { hostCall := some (api, merged :: args.tail),
      settlement :=
        match runHost env api (merged :: args.tail) .pending with
        | (.ok _, st) => st
        | (.error e, st) => st.rejectWith e }

/-- promisify from the source: throws synchronously when the held wx value
is falsy, otherwise returns the invoker closure. -/
def promisify (env : HostEnv) (wx : Value) (api : Value) :
    Except Value (List Value → InvokeOutcome) :=
  if truthy wx then .ok (runInvoker env api) else .error wxAbsentError

/-- Calling the result of promisify on an argument list; an error from
promisify itself propagates as the synchronous throw it is. -/
def promisifyApply (env : HostEnv) (wx : Value) (api : Value) (args : List Value) :
    Except Value InvokeOutcome :=
  match promisify env wx api with
  | .ok inv => .ok (inv args)
  | .error e => .error e

/-- setOption from the source: checks wx truthiness, then calls the
promisified wx[fun] with the options value when that value is truthy and
with no arguments otherwise. -/
def setOption (env : HostEnv) (wx : Value) (fname : String) (options : Value) :
    Except Value InvokeOutcome :=
  if truthy wx then
    if truthy options then promisifyApply env wx (getProp wx fname) [options]
    else promisifyApply env wx (getProp wx fname) []
  else .error wxAbsentError

/-- The promise settlement of an invocation, or none when the call threw
synchronously. -/
def settlementOf : Except Value InvokeOutcome → Option Settlement
  | .ok o => some o.settlement
  | .error _ => none

/-- The host call an invocation performed, or none when the call threw
synchronously before reaching the executor. -/
def hostCallOf : Except Value InvokeOutcome → Option (Value × List Value)
  | .ok o => o.hostCall
  | .error _ => none

/-- Body of the login pass-through method: one-line delegation to setOption.
The async wrapper around the body re-wraps the returned promise without
changing its settlement. -/
def login (env : HostEnv) (wx : Value) (options : Value) : Except Value InvokeOutcome :=
  setOption env wx "login" options

/-- Body of the request pass-through method. -/
def request (env : HostEnv) (wx : Value) (options : Value) : Except Value InvokeOutcome :=
  setOption env wx "request" options

/-- Body of the HTTP GET convenience method: pre-populates the method field
and merges the positional url, data and header arguments into the options
before delegating to setOption. -/
def get (env : HostEnv) (wx : Value) (url data header : Value) : Except Value InvokeOutcome :=
  setOption env wx "request"
    (objAssign [.obj [("method", .str "GET"), ("url", url), ("data", data), ("header", header)]])

/-- Body of the HTTP POST convenience method. -/
def post (env : HostEnv) (wx : Value) (url data header : Value) : Except Value InvokeOutcome :=
  setOption env wx "request"
    (objAssign [.obj [("method", .str "POST"), ("url", url), ("data", data), ("header", header)]])

/-- Body of the HTTP PUT convenience method. -/
def put (env : HostEnv) (wx : Value) (url data header : Value) : Except Value InvokeOutcome :=
  setOption env wx "request"
    (objAssign [.obj [("method", .str "PUT"), ("url", url), ("data", data), ("header", header)]])

/-- Body of the HTTP DELETE convenience method. -/
def delete (env : HostEnv) (wx : Value) (url data header : Value) : Except Value InvokeOutcome :=
  setOption env wx "request"
    (objAssign [.obj [("method", .str "DELETE"), ("url", url), ("data", data), ("header", header)]])

/-- The mutable locations an adapter invocation could touch: the held wx
reference and the caller options value.  The statement-by-statement
translation of setOption and promisify threads this state through unchanged
because the only Object.assign target in the source is a fresh object
literal and no other property write occurs. -/
structure AdapterState where
  wx : Value
  callerOptions : Value

/-- setOption together with the state of the held wx reference and the
caller options value after the call. -/
def setOptionTracked (env : HostEnv) (st : AdapterState) (fname : String) :
    Except Value InvokeOutcome × AdapterState :=
  (setOption env st.wx fname st.callerOptions, st)

end MpWxSdk


namespace MpWxSdk

/-- Looking up the key just written finds the written value. -/
theorem lookupProp_setProp_self (fs : List (String × Value)) (k : String) (v : Value) :
    lookupProp (setProp fs k v) k = some v := by
  induction fs with
  | nil => simp [setProp, lookupProp]
  | cons p rest ih =>
    obtain ⟨k₀, v₀⟩ := p
    by_cases h : k₀ = k
    · subst h; simp [setProp, lookupProp]
    · simp [setProp, lookupProp, h, ih]

/-- Writing one key leaves lookups of any other key unchanged. -/
theorem lookupProp_setProp_ne (fs : List (String × Value)) (k k' : String) (v : Value)
    (h : k ≠ k') : lookupProp (setProp fs k v) k' = lookupProp fs k' := by
  induction fs with
  | nil => simp [setProp, lookupProp, h]
  | cons p rest ih =>
    obtain ⟨k₀, v₀⟩ := p
    by_cases h₀ : k₀ = k
    · subst h₀; simp [setProp, lookupProp, h]
    · simp [setProp, lookupProp, h₀, ih]

/-- The merged options the invoker builds always carry the injected resolve
function in the success field, whatever the caller supplied. -/
theorem getProp_mergedOptions_success (o : Value) :
    getProp (mergedOptions o) "success" = .resolveFn := by
  have h1 : lookupProp (setProp (setProp (assignProps [] (ownProps o)) "success" .resolveFn)
      "fail" .rejectFn) "success" = some .resolveFn := by
    rw [lookupProp_setProp_ne _ _ _ _ (by decide)]
    exact lookupProp_setProp_self _ _ _
  show (match lookupProp (setProp (setProp (assignProps [] (ownProps o)) "success" .resolveFn)
      "fail" .rejectFn) "success" with | some w => w | none => Value.undefined) = .resolveFn
  rw [h1]

/-- The merged options always carry the injected reject function in the fail
field, whatever the caller supplied. -/
theorem getProp_mergedOptions_fail (o : Value) :
    getProp (mergedOptions o) "fail" = .rejectFn := by
  have h1 : lookupProp (setProp (setProp (assignProps [] (ownProps o)) "success" .resolveFn)
      "fail" .rejectFn) "fail" = some .rejectFn :=
    lookupProp_setProp_self _ _ _
  show (match lookupProp (setProp (setProp (assignProps [] (ownProps o)) "success" .resolveFn)
      "fail" .rejectFn) "fail" with | some w => w | none => Value.undefined) = .rejectFn
  rw [h1]

/-- Copying pairs whose keys avoid k does not change lookups of k. -/
theorem lookupProp_assignProps_not_mem (fs : List (String × Value)) (k : String)
    (h : k ∉ fs.map Prod.fst) :
    ∀ acc, lookupProp (assignProps acc fs) k = lookupProp acc k := by
  induction fs with
  | nil => intro acc; rfl
  | cons p rest ih =>
    intro acc
    obtain ⟨k₀, v₀⟩ := p
    simp only [List.map_cons, List.mem_cons] at h
    push_neg at h
    show lookupProp (assignProps (setProp acc k₀ v₀) rest) k = lookupProp acc k
    rw [ih h.2, lookupProp_setProp_ne _ _ _ _ (Ne.symm h.1)]

/-- Copying a duplicate-free pair list onto an accumulator: a key of the
list gets its listed value, any other key keeps its accumulator value. -/
theorem lookupProp_assignProps_nodup (fs : List (String × Value)) (k : String)
    (h : (fs.map Prod.fst).Nodup) :
    ∀ acc, lookupProp (assignProps acc fs) k =
      match lookupProp fs k with
      | some v => some v
      | none => lookupProp acc k := by
  induction fs with
  | nil => intro acc; rfl
  | cons p rest ih =>
    intro acc
    obtain ⟨k₀, v₀⟩ := p
    simp only [List.map_cons, List.nodup_cons] at h
    show lookupProp (assignProps (setProp acc k₀ v₀) rest) k = _
    by_cases hk : k₀ = k
    · subst hk
      rw [lookupProp_assignProps_not_mem rest k₀ h.1]
      simp [lookupProp, lookupProp_setProp_self]
    · rw [ih h.2]
      cases hrest : lookupProp rest k <;>
        simp [lookupProp, hk, hrest, lookupProp_setProp_ne _ _ _ _ hk]

/-- A falsy JavaScript value has no own enumerable properties. -/
theorem ownProps_of_falsy (v : Value) (h : truthy v = false) : ownProps v = [] := by
  cases v <;> simp_all [truthy, ownProps]
  case str s =>
    subst h
    simp [strProps]

/-- Every JavaScript function is truthy, so a falsy value fails the
typeof-function test. -/
theorem isFunction_of_falsy (v : Value) (h : truthy v = false) : isFunction v = false := by
  cases v <;> simp_all [truthy, isFunction]

/-- Merging a falsy options value produces the same object as merging the
absent (undefined) options value: both copy nothing. -/
theorem mergedOptions_falsy (o : Value) (h : truthy o = false) :
    mergedOptions o = mergedOptions .undefined := by
  show Value.obj (assignProps (assignProps [] (ownProps o))
      [("success", .resolveFn), ("fail", .rejectFn)]) = mergedOptions .undefined
  rw [ownProps_of_falsy o h]
  rfl

end MpWxSdk

namespace MpWxSdk

/-- With a non-callable options value the invoker takes the structured
branch: it calls the api with the merged options followed by the rest
arguments, and the promise settles as that call dictates. -/
theorem runInvoker_structured (env : HostEnv) (api : Value) (args : List Value)
    (ho : isFunction (args.headD .undefined) = false) :
    runInvoker env api args =
      { hostCall := some (api, mergedOptions (args.headD .undefined) :: args.tail),
        settlement :=
          match runHost env api (mergedOptions (args.headD .undefined) :: args.tail) .pending with
          | (.ok _, st) => st
          | (.error e, st) => st.rejectWith e } := by
  simp only [runInvoker, ho, Bool.false_eq_true, if_false]

/-- A host operation that calls the success field of its first argument with
v makes the promisified invocation resolve with exactly v. -/
theorem runInvoker_success (env : HostEnv) (t : Nat) (v r : Value) (args : List Value)
    (ho : isFunction (args.headD .undefined) = false)
    (henv : env t = .callField "success" v r) :
    runInvoker env (.hostFn t) args =
      ⟨some (.hostFn t, mergedOptions (args.headD .undefined) :: args.tail), .resolved v⟩ := by
  rw [runInvoker_structured _ _ _ ho]
  simp [runHost, henv, callCallback, getProp_mergedOptions_success, Settlement.resolveWith]

/-- A host operation that calls the fail field of its first argument with e
makes the promisified invocation reject with exactly e. -/
theorem runInvoker_fail (env : HostEnv) (t : Nat) (e r : Value) (args : List Value)
    (ho : isFunction (args.headD .undefined) = false)
    (henv : env t = .callField "fail" e r) :
    runInvoker env (.hostFn t) args =
      ⟨some (.hostFn t, mergedOptions (args.headD .undefined) :: args.tail), .rejected e⟩ := by
  rw [runInvoker_structured _ _ _ ho]
  simp [runHost, henv, callCallback, getProp_mergedOptions_fail, Settlement.rejectWith]

/-- Applying a non-function value throws the TypeError and leaves the
promise state unchanged. -/
theorem runHost_not_function (env : HostEnv) (api : Value) (args : List Value)
    (st : Settlement) (h : isFunction api = false) :
    runHost env api args st = (.error typeErrorNotFunction, st) := by
  cases api <;> simp_all [isFunction, runHost]

/-- When the api value is not callable, the attempted call throws inside
the promise executor, so the promise is rejected with the TypeError; no
synchronous throw escapes. -/
theorem runInvoker_api_not_function (env : HostEnv) (api : Value) (args : List Value)
    (h : isFunction api = false) :
    (runInvoker env api args).settlement = .rejected typeErrorNotFunction := by
  simp only [runInvoker, runHost_not_function env api _ _ h]
  split <;> rfl

/-- Invoking with a single falsy options argument behaves exactly like
invoking with no arguments. -/
theorem runInvoker_falsy (env : HostEnv) (api o : Value) (h : truthy o = false) :
    runInvoker env api [o] = runInvoker env api [] := by
  have h1 : isFunction o = false := isFunction_of_falsy o h
  have h0 : isFunction Value.undefined = false := rfl
  simp only [runInvoker, List.headD_cons, List.headD_nil, List.tail_cons, List.tail_nil,
    h1, h0, Bool.false_eq_true, if_false, mergedOptions_falsy o h]

/-- With a truthy wx value, setOption returns the promise of the invoker of
wx[fun], called on the options value when truthy and on nothing otherwise. -/
theorem setOption_ok (env : HostEnv) (wx : Value) (fname : String) (o : Value)
    (hwx : truthy wx = true) :
    setOption env wx fname o =
      .ok (runInvoker env (getProp wx fname) (if truthy o then [o] else [])) := by
  simp only [setOption, promisifyApply, promisify, hwx, if_true]
  split <;> rfl

/-- Resolving the operation on an object capability: property access goes
through the field list. -/
theorem getProp_obj (gs : List (String × Value)) (fname : String) (t : Nat)
    (hf : lookupProp gs fname = some (.hostFn t)) :
    getProp (.obj gs) fname = .hostFn t := by
  show (match lookupProp gs fname with | some w => w | none => Value.undefined) = _
  rw [hf]

/-- With a present capability object and a non-callable options value, the
host operation named fun receives exactly the merged options value as its
only argument, for truthy and falsy options alike. -/
theorem setOption_hostCall (env : HostEnv) (gs : List (String × Value)) (fname : String)
    (t : Nat) (o : Value) (hf : lookupProp gs fname = some (.hostFn t))
    (ho : isFunction o = false) :
    hostCallOf (setOption env (.obj gs) fname o) = some (.hostFn t, [mergedOptions o]) := by
  rw [setOption_ok env (.obj gs) fname o rfl, getProp_obj gs fname t hf]
  by_cases hto : truthy o = true
  · rw [if_pos hto, runInvoker_structured _ _ _ (by simpa using ho)]
    rfl
  · rw [if_neg hto, runInvoker_structured _ _ _ (by simp [isFunction])]
    simp [hostCallOf, mergedOptions_falsy o (by simpa using hto)]

/-- setOption settlement when the host calls the injected success callback. -/
theorem setOption_settles_success (env : HostEnv) (gs : List (String × Value))
    (fname : String) (t : Nat) (o v r : Value)
    (hf : lookupProp gs fname = some (.hostFn t)) (ho : isFunction o = false)
    (henv : env t = .callField "success" v r) :
    settlementOf (setOption env (.obj gs) fname o) = some (.resolved v) := by
  rw [setOption_ok env (.obj gs) fname o rfl, getProp_obj gs fname t hf]
  by_cases hto : truthy o = true
  · rw [if_pos hto, runInvoker_success env t v r [o] (by simpa using ho) henv]
    rfl
  · rw [if_neg hto, runInvoker_success env t v r [] (by simp [isFunction]) henv]
    rfl

/-- setOption settlement when the host calls the injected fail callback. -/
theorem setOption_settles_fail (env : HostEnv) (gs : List (String × Value))
    (fname : String) (t : Nat) (o e r : Value)
    (hf : lookupProp gs fname = some (.hostFn t)) (ho : isFunction o = false)
    (henv : env t = .callField "fail" e r) :
    settlementOf (setOption env (.obj gs) fname o) = some (.rejected e) := by
  rw [setOption_ok env (.obj gs) fname o rfl, getProp_obj gs fname t hf]
  by_cases hto : truthy o = true
  · rw [if_pos hto, runInvoker_fail env t e r [o] (by simpa using ho) henv]
    rfl
  · rw [if_neg hto, runInvoker_fail env t e r [] (by simp [isFunction]) henv]
    rfl

end MpWxSdk

namespace MpWxSdk

/-- For any key other than success and fail, the merged options read exactly
as the caller options read: the merge is a shallow copy. -/
theorem getProp_mergedOptions_other (o : Value) (k : String)
    (hnd : ((ownProps o).map Prod.fst).Nodup)
    (hs : k ≠ "success") (hfk : k ≠ "fail") :
    getProp (mergedOptions o) k = getProp o k := by
  have h1 : lookupProp (setProp (setProp (assignProps [] (ownProps o)) "success" .resolveFn)
      "fail" .rejectFn) k = lookupProp (assignProps [] (ownProps o)) k := by
    rw [lookupProp_setProp_ne _ _ _ _ (Ne.symm hfk), lookupProp_setProp_ne _ _ _ _ (Ne.symm hs)]
  have h2 := lookupProp_assignProps_nodup (ownProps o) k hnd []
  show (match lookupProp (setProp (setProp (assignProps [] (ownProps o)) "success" .resolveFn)
      "fail" .rejectFn) k with | some w => w | none => Value.undefined) = getProp o k
  rw [h1, h2]
  cases hrl : lookupProp (ownProps o) k <;> simp [getProp, hrl, lookupProp]

end MpWxSdk

namespace MpWxSdk

/-- C1: for every operation name present as a callable on the capability
object and every non-callable options value, the promise returned through
setOption resolves with exactly the single value the host operation passes
to the injected success callback, and rejects with exactly the single value
the host passes to the injected fail callback, with no wrapping or
reinterpretation of either value. -/
theorem claim1_success_fail_passthrough (env₁ env₂ : HostEnv)
    (gs : List (String × Value)) (fname : String) (t : Nat) (o v e r₁ r₂ : Value)
    (hf : lookupProp gs fname = some (.hostFn t)) (ho : isFunction o = false)
    (h₁ : env₁ t = .callField "success" v r₁) (h₂ : env₂ t = .callField "fail" e r₂) :
    settlementOf (setOption env₁ (.obj gs) fname o) = some (.resolved v) ∧
    settlementOf (setOption env₂ (.obj gs) fname o) = some (.rejected e) :=
  ⟨setOption_settles_success env₁ gs fname t o v r₁ hf ho h₁,
   setOption_settles_fail env₂ gs fname t o e r₂ hf ho h₂⟩

/-- Witness for C1 at the login scenario of the spec. -/
theorem claim1_witness :
    lookupProp [("login", Value.hostFn 0)] "login" = some (Value.hostFn 0) ∧
    isFunction (Value.obj []) = false ∧
    settlementOf (setOption (fun _ => .callField "success" (.str "ok") .undefined)
      (.obj [("login", .hostFn 0)]) "login" (.obj [])) = some (.resolved (.str "ok")) ∧
    settlementOf (setOption (fun _ => .callField "fail" (.str "bad") .undefined)
      (.obj [("login", .hostFn 0)]) "login" (.obj [])) = some (.rejected (.str "bad")) := by
  have h := claim1_success_fail_passthrough
    (fun _ => .callField "success" (.str "ok") .undefined)
    (fun _ => .callField "fail" (.str "bad") .undefined)
    [("login", .hostFn 0)] "login" 0 (.obj []) (.str "ok") (.str "bad") .undefined .undefined
    rfl rfl rfl rfl
  exact ⟨rfl, rfl, h.1, h.2⟩

/-- C2 counterexample: with the capability object present but lacking the
invoked key, setOption does not throw synchronously; it returns a promise
whose settlement is a rejection with the TypeError raised inside the
executor, refuting the claimed uncaught synchronous throw. -/
theorem claim2_counterexample :
    setOption (fun _ => .pureRet .undefined) (.obj [("login", .hostFn 0)]) "doesNotExist"
        (.obj []) =
      .ok ⟨some (.undefined, [.obj [("success", .resolveFn), ("fail", .rejectFn)]]),
        .rejected typeErrorNotFunction⟩ := rfl

/-- C2 amended: for every capability object whose named field is not
callable, invoking setOption while the capability object is present does not
throw synchronously; the attempt to call the non-function throws inside the
promise executor, so the returned promise rejects with the TypeError. -/
theorem claim2_missing_operation_rejects (env : HostEnv) (gs : List (String × Value))
    (fname : String) (o : Value)
    (hapi : isFunction (getProp (.obj gs) fname) = false) :
    settlementOf (setOption env (.obj gs) fname o) =
      some (.rejected typeErrorNotFunction) := by
  rw [setOption_ok env (.obj gs) fname o rfl]
  show some (runInvoker env (getProp (.obj gs) fname)
    (if truthy o = true then [o] else [])).settlement = _
  rw [runInvoker_api_not_function _ _ _ hapi]

/-- Witness for the amended C2. -/
theorem claim2_witness :
    isFunction (getProp (.obj [("login", Value.hostFn 0)]) "doesNotExist") = false ∧
    settlementOf (setOption (fun _ => .pureRet .undefined) (.obj [("login", .hostFn 0)])
      "doesNotExist" (.obj [])) = some (.rejected typeErrorNotFunction) :=
  ⟨rfl, claim2_missing_operation_rejects (fun _ => .pureRet .undefined)
    [("login", .hostFn 0)] "doesNotExist" (.obj []) rfl⟩

/-- C3: invoking setOption, a promisified invoker, or promisify itself while
the held capability reference is undefined or null throws the wx-absent
error synchronously: the result is the thrown error, no promise is created,
and no rejection carries it. -/
theorem claim3_absent_wx_throws (env : HostEnv) (wx : Value) (fname : String)
    (o api : Value) (args : List Value) (h : wx = .undefined ∨ wx = .null) :
    setOption env wx fname o = .error wxAbsentError ∧
    promisifyApply env wx api args = .error wxAbsentError ∧
    promisify env wx api = .error wxAbsentError := by
  rcases h with h | h <;> subst h <;> exact ⟨rfl, rfl, rfl⟩

/-- Witness for C3 with the undefined capability reference. -/
theorem claim3_witness :
    (Value.undefined = Value.undefined ∨ Value.undefined = Value.null) ∧
    setOption (fun _ => .pureRet .undefined) .undefined "login" (.obj []) = .error wxAbsentError ∧
    promisifyApply (fun _ => .pureRet .undefined) .undefined .undefined [] = .error wxAbsentError ∧
    promisify (fun _ => .pureRet .undefined) .undefined .undefined = .error wxAbsentError :=
  ⟨Or.inl rfl, claim3_absent_wx_throws (fun _ => .pureRet .undefined) .undefined "login"
    (.obj []) .undefined [] (Or.inl rfl)⟩

/-- C4: with a non-callable options value the host operation receives a new
object that is a shallow copy of the caller options (empty when options is
absent) whose success field is the promise resolve function and whose fail
field is its reject function, these two overriding caller fields of the
same names. -/
theorem claim4_shallow_copy_injection (env : HostEnv) (gs : List (String × Value))
    (fname : String) (t : Nat) (o : Value)
    (hf : lookupProp gs fname = some (.hostFn t)) (ho : isFunction o = false)
    (hnd : ((ownProps o).map Prod.fst).Nodup) :
    hostCallOf (setOption env (.obj gs) fname o) = some (.hostFn t, [mergedOptions o]) ∧
    getProp (mergedOptions o) "success" = .resolveFn ∧
    getProp (mergedOptions o) "fail" = .rejectFn ∧
    ∀ k, k ≠ "success" → k ≠ "fail" → getProp (mergedOptions o) k = getProp o k :=
  ⟨setOption_hostCall env gs fname t o hf ho,
   getProp_mergedOptions_success o, getProp_mergedOptions_fail o,
   fun k hs hfk => getProp_mergedOptions_other o k hnd hs hfk⟩

/-- Witness for C4 with a caller options object that itself carries a
success field, shown overridden in the copy and untouched in the original. -/
theorem claim4_witness :
    lookupProp [("login", Value.hostFn 0)] "login" = some (Value.hostFn 0) ∧
    isFunction (Value.obj [("url", .str "/x"), ("success", .hostFn 9)]) = false ∧
    ((ownProps (Value.obj [("url", .str "/x"), ("success", .hostFn 9)])).map Prod.fst).Nodup ∧
    hostCallOf (setOption (fun _ => .pureRet .undefined) (.obj [("login", .hostFn 0)]) "login"
        (.obj [("url", .str "/x"), ("success", .hostFn 9)])) =
      some (.hostFn 0, [mergedOptions (.obj [("url", .str "/x"), ("success", .hostFn 9)])]) ∧
    getProp (mergedOptions (.obj [("url", .str "/x"), ("success", .hostFn 9)])) "success" =
      .resolveFn ∧
    getProp (mergedOptions (.obj [("url", .str "/x"), ("success", .hostFn 9)])) "fail" =
      .rejectFn ∧
    getProp (mergedOptions (.obj [("url", .str "/x"), ("success", .hostFn 9)])) "url" =
      getProp (.obj [("url", .str "/x"), ("success", .hostFn 9)]) "url" := by
  have h := claim4_shallow_copy_injection (fun _ => .pureRet .undefined) [("login", .hostFn 0)]
    "login" 0 (.obj [("url", .str "/x"), ("success", .hostFn 9)]) rfl rfl (by decide)
  exact ⟨rfl, rfl, by decide, h.1, h.2.1, h.2.2.1, h.2.2.2 "url" (by decide) (by decide)⟩

/-- C5: when the options argument is itself callable, the invoker calls the
host operation with that callable as its sole argument, forwards no extra
positional arguments, injects no callbacks, and resolves the promise with
the host return value. -/
theorem claim5_bare_callback (env : HostEnv) (wx F r : Value) (t : Nat) (ps : List Value)
    (hwx : truthy wx = true) (hF : isFunction F = true) (henv : env t = .pureRet r) :
    promisifyApply env wx (.hostFn t) (F :: ps) =
      .ok ⟨some (.hostFn t, [F]), .resolved r⟩ := by
  simp [promisifyApply, promisify, hwx, runInvoker, hF, runHost, henv,
    Settlement.resolveWith]

/-- Witness for C5: extra arguments after the callable are dropped and the
host return value becomes the resolution. -/
theorem claim5_witness :
    truthy (Value.obj []) = true ∧
    isFunction (Value.hostFn 5) = true ∧
    (fun _ => HostBeh.pureRet (Value.int 7)) 0 = HostBeh.pureRet (Value.int 7) ∧
    promisifyApply (fun _ => .pureRet (.int 7)) (.obj []) (.hostFn 0) [.hostFn 5, .int 9] =
      .ok ⟨some (.hostFn 0, [.hostFn 5]), .resolved (.int 7)⟩ :=
  ⟨rfl, rfl, rfl, claim5_bare_callback (fun _ => .pureRet (.int 7)) (.obj [])
    (.hostFn 5) (.int 7) 0 [.int 9] rfl rfl rfl⟩

/-- C6: every extra positional argument passed to the invoker beyond the
options value reaches the host operation unchanged and in order,
immediately after the merged options value. -/
theorem claim6_extra_args_forwarded (env : HostEnv) (wx api o : Value) (ps : List Value)
    (hwx : truthy wx = true) (ho : isFunction o = false) :
    hostCallOf (promisifyApply env wx api (o :: ps)) = some (api, mergedOptions o :: ps) := by
  rw [show promisifyApply env wx api (o :: ps) = .ok (runInvoker env api (o :: ps)) from by
    simp [promisifyApply, promisify, hwx]]
  rw [runInvoker_structured env api (o :: ps) (by simpa using ho)]
  rfl

/-- Witness for C6 with two extra positional arguments. -/
theorem claim6_witness :
    truthy (Value.obj []) = true ∧
    isFunction (Value.obj [("a", Value.int 1)]) = false ∧
    hostCallOf (promisifyApply (fun _ => .pureRet .undefined) (.obj []) (.hostFn 1)
        [.obj [("a", .int 1)], .int 2, .str "b"]) =
      some (.hostFn 1, [mergedOptions (.obj [("a", .int 1)]), .int 2, .str "b"]) :=
  ⟨rfl, rfl, claim6_extra_args_forwarded (fun _ => .pureRet .undefined) (.obj [])
    (.hostFn 1) (.obj [("a", .int 1)]) [.int 2, .str "b"] rfl rfl⟩

/-- C7: setOption is the convenience composition of promisify with property
lookup: for every options value it behaves exactly as the promisified
wx field applied to that options value, and with the absent options value
it behaves as the invoker applied to no arguments. -/
theorem claim7_setOption_is_composition (env : HostEnv) (wx : Value)
    (fname : String) (o : Value) :
    setOption env wx fname o = promisifyApply env wx (getProp wx fname) [o] ∧
    setOption env wx fname .undefined = promisifyApply env wx (getProp wx fname) [] := by
  constructor
  · by_cases hwx : truthy wx = true
    · by_cases hto : truthy o = true
      · simp [setOption, hwx, hto]
      · have hto' : truthy o = false := by simpa using hto
        simp only [setOption, hwx, if_true, hto', Bool.false_eq_true, if_false,
          promisifyApply, promisify]
        rw [runInvoker_falsy env (getProp wx fname) o hto']
    · have hwx' : truthy wx = false := by simpa using hwx
      simp [setOption, promisifyApply, promisify, hwx']
  · by_cases hwx : truthy wx = true
    · have h0 : truthy Value.undefined = false := rfl
      simp [setOption, hwx, h0]
    · have hwx' : truthy wx = false := by simpa using hwx
      simp [setOption, promisifyApply, promisify, hwx']

/-- C8: the HTTP verb convenience methods call the underlying request
operation with an options object carrying the verb literal, url, data and
header, merged with the injected success and fail callback fields. -/
theorem claim8_http_verb_options (env : HostEnv) (gs : List (String × Value)) (t : Nat)
    (u d h : Value) (hreq : lookupProp gs "request" = some (.hostFn t)) :
    hostCallOf (post env (.obj gs) u d h) = some (.hostFn t,
      [.obj [("method", .str "POST"), ("url", u), ("data", d), ("header", h),
             ("success", .resolveFn), ("fail", .rejectFn)]]) ∧
    hostCallOf (get env (.obj gs) u d h) = some (.hostFn t,
      [.obj [("method", .str "GET"), ("url", u), ("data", d), ("header", h),
             ("success", .resolveFn), ("fail", .rejectFn)]]) ∧
    hostCallOf (put env (.obj gs) u d h) = some (.hostFn t,
      [.obj [("method", .str "PUT"), ("url", u), ("data", d), ("header", h),
             ("success", .resolveFn), ("fail", .rejectFn)]]) ∧
    hostCallOf (delete env (.obj gs) u d h) = some (.hostFn t,
      [.obj [("method", .str "DELETE"), ("url", u), ("data", d), ("header", h),
             ("success", .resolveFn), ("fail", .rejectFn)]]) := by
  refine ⟨?_, ?_, ?_, ?_⟩
  · exact (setOption_hostCall env gs "request" t (objAssign [.obj [("method", .str "POST"),
      ("url", u), ("data", d), ("header", h)]]) hreq rfl).trans rfl
  · exact (setOption_hostCall env gs "request" t (objAssign [.obj [("method", .str "GET"),
      ("url", u), ("data", d), ("header", h)]]) hreq rfl).trans rfl
  · exact (setOption_hostCall env gs "request" t (objAssign [.obj [("method", .str "PUT"),
      ("url", u), ("data", d), ("header", h)]]) hreq rfl).trans rfl
  · exact (setOption_hostCall env gs "request" t (objAssign [.obj [("method", .str "DELETE"),
      ("url", u), ("data", d), ("header", h)]]) hreq rfl).trans rfl

/-- Witness for C8 at a concrete request capability. -/
theorem claim8_witness :
    lookupProp [("request", Value.hostFn 2)] "request" = some (Value.hostFn 2) ∧
    hostCallOf (post (fun _ => .pureRet .undefined) (.obj [("request", .hostFn 2)])
        (.str "/x") (.obj []) .undefined) =
      some (.hostFn 2, [.obj [("method", .str "POST"), ("url", .str "/x"),
        ("data", .obj []), ("header", .undefined),
        ("success", .resolveFn), ("fail", .rejectFn)]]) ∧
    hostCallOf (get (fun _ => .pureRet .undefined) (.obj [("request", .hostFn 2)])
        (.str "/x") (.obj []) .undefined) =
      some (.hostFn 2, [.obj [("method", .str "GET"), ("url", .str "/x"),
        ("data", .obj []), ("header", .undefined),
        ("success", .resolveFn), ("fail", .rejectFn)]]) := by
  have h := claim8_http_verb_options (fun _ => .pureRet .undefined) [("request", .hostFn 2)] 2
    (.str "/x") (.obj []) .undefined rfl
  exact ⟨rfl, h.1, h.2.1⟩

/-- C9: no adapter operation mutates the held capability object or the
caller options value: the state after an invocation equals the state before
it, and the success and fail injection happens only on a fresh object built
by copying the caller fields onto an empty target. -/
theorem claim9_no_mutation (env : HostEnv) (gs fs : List (String × Value))
    (fname : String) (t : Nat) (hf : lookupProp gs fname = some (.hostFn t)) :
    (setOptionTracked env ⟨.obj gs, .obj fs⟩ fname).2 = ⟨.obj gs, .obj fs⟩ ∧
    hostCallOf (setOptionTracked env ⟨.obj gs, .obj fs⟩ fname).1 =
      some (.hostFn t, [.obj (assignProps (assignProps [] fs)
        [("success", .resolveFn), ("fail", .rejectFn)])]) :=
  ⟨rfl, setOption_hostCall env gs fname t (.obj fs) hf rfl⟩

/-- Witness for C9. -/
theorem claim9_witness :
    lookupProp [("login", Value.hostFn 0)] "login" = some (Value.hostFn 0) ∧
    (setOptionTracked (fun _ => .pureRet .undefined)
      ⟨.obj [("login", .hostFn 0)], .obj [("timeout", .int 3)]⟩ "login").2 =
      ⟨.obj [("login", .hostFn 0)], .obj [("timeout", .int 3)]⟩ ∧
    hostCallOf (setOptionTracked (fun _ => .pureRet .undefined)
        ⟨.obj [("login", .hostFn 0)], .obj [("timeout", .int 3)]⟩ "login").1 =
      some (.hostFn 0, [.obj (assignProps (assignProps [] [("timeout", .int 3)])
        [("success", .resolveFn), ("fail", .rejectFn)])]) := by
  have h := claim9_no_mutation (fun _ => .pureRet .undefined) [("login", .hostFn 0)]
    [("timeout", .int 3)] "login" 0 rfl
  exact ⟨rfl, h.1, h.2⟩

/-- C10: constructing the adapter with any falsy capability value, not only
null or undefined, makes every subsequent invocation throw the wx-absent
error, because presence is tested by general falsiness. -/
theorem claim10_falsy_wx_throws (env : HostEnv) (wx : Value) (fname : String)
    (o api : Value) (args : List Value) (h : truthy wx = false) :
    setOption env wx fname o = .error wxAbsentError ∧
    promisifyApply env wx api args = .error wxAbsentError := by
  constructor
  · simp [setOption, h]
  · simp [promisifyApply, promisify, h]

/-- Witness for C10 at the four falsy non-null values false, 0, the empty
string and NaN. -/
theorem claim10_witness :
    (truthy (Value.bool false) = false ∧
      setOption (fun _ => .pureRet .undefined) (.bool false) "login" (.obj []) =
        .error wxAbsentError) ∧
    (truthy (Value.int 0) = false ∧
      setOption (fun _ => .pureRet .undefined) (.int 0) "login" (.obj []) =
        .error wxAbsentError) ∧
    (truthy (Value.str "") = false ∧
      setOption (fun _ => .pureRet .undefined) (.str "") "login" (.obj []) =
        .error wxAbsentError) ∧
    (truthy Value.nan = false ∧
      promisifyApply (fun _ => .pureRet .undefined) .nan .undefined [] = .error wxAbsentError) :=
  ⟨⟨rfl, (claim10_falsy_wx_throws (fun _ => .pureRet .undefined) (.bool false) "login"
      (.obj []) .undefined [] rfl).1⟩,
   ⟨by decide, (claim10_falsy_wx_throws (fun _ => .pureRet .undefined) (.int 0) "login"
      (.obj []) .undefined [] (by decide)).1⟩,
   ⟨by decide, (claim10_falsy_wx_throws (fun _ => .pureRet .undefined) (.str "") "login"
      (.obj []) .undefined [] (by decide)).1⟩,
   ⟨rfl, (claim10_falsy_wx_throws (fun _ => .pureRet .undefined) .nan "login"
      (.obj []) .undefined [] rfl).2⟩⟩

end MpWxSdk
